import Mathlib

/-!
Shallow embedding of the mlua FFI shim (`src/ffi/shim/shim.c`): the Lua value
stack, the raw table primitives, the safe callback trampoline `lua_call_rust`,
the error/panic classifier `error_traceback`, and the metatable dispatch
shims `meta_index_impl`, `meta_newindex_impl`, `bind_call_impl`.

Modelling conventions:
* The Lua value stack is a `List LValue` whose head is the TOP of the stack.
* Machine stack capacity is a `room : Nat` field counting how many further
  pushes the Lua runtime can still grant; `lua_checkstack L n` succeeds
  exactly when `n ≤ room`.
* Lua tables are association lists from flat keys (`LKey`) to values; the
  key kinds modelled (integers, strings, booleans) are the ones the shim
  exercises.  Data tables carry no metatables, so `lua_gettable` and
  `lua_settable` on them coincide with the raw accessors.
* Userdata values carry the allocation id, an optional metatable id and the
  content of the allocated block, so that a host callback writing an error
  into the pre-allocated Failure Slot is observable.
* Calls back into Lua/host functions go through an oracle
  `call : Nat → List LValue → List LValue` mapping a function id and the
  argument list (bottom-to-top order) to the produced results.
-/

/-- Table keys used by the shim: integer, string and boolean keys. -/
inductive LKey where
  | kint (n : Int)
  | kstr (s : String)
  | kbool (b : Bool)
  deriving DecidableEq, Repr

/-- Contents of a userdata allocation: a blank block of a given size as
produced by `lua_newuserdata`, a wrapped host error or panic written by the
host callback, or the augmented callback error produced by the host
finalizer from a cause and an optional traceback string. -/
inductive UDContent where
  | blank (size : Nat)
  | hostErr (e : Nat)
  | hostPanic (p : Nat)
  | callbackErr (cause : UDContent) (tb : Option String)
  deriving DecidableEq, Repr

/-- Dynamically typed Lua values as seen by the shim. -/
inductive LValue where
  | nil
  | boolean (b : Bool)
  | integer (n : Int)
  | str (s : String)
  | table (entries : List (LKey × LValue))
  | func (id : Nat)
  | userdata (id : Nat) (mt : Option Nat) (content : UDContent)

/-- The Lua execution state visible to the shim: the value stack (head is
the top), the remaining push capacity, and a fresh-allocation counter for
`lua_newuserdata`. -/
structure LuaState where
  stack : List LValue
  room : Nat
  nextId : Nat

/-- A raised Lua error carrying its payload value, or a C-level API misuse
(e.g. `lua_rawget` on a value that is not a table). -/
inductive LError where
  | luaErr (payload : LValue)
  | typeFault

/-- Boolean test for the nil value, mirroring `lua_isnil`. -/
def LValue.isNil : LValue → Bool
  | .nil => true
  | _ => false

/-- Top value of a stack given as a head-is-top list (`lua_gettop` slot,
index -1); empty stacks read as nil. -/
def stackTop (s : List LValue) : LValue := s.headD .nil

/-- Position in the head-is-top list of a Lua stack index: positive indices
count from the bottom (1 is the bottom), negative indices count from the
top (-1 is the top). -/
def resolveIdx (s : List LValue) (i : Int) : Nat :=
  if 0 ≤ i then s.length - i.toNat else (-i).toNat - 1

/-- Read the value at a Lua stack index; out-of-range reads give nil. -/
def stackGet (s : List LValue) (i : Int) : LValue :=
  s.getD (resolveIdx s i) .nil

/-- Overwrite the value at a Lua stack index, mirroring `lua_replace`
target semantics. -/
def stackSet (s : List LValue) (i : Int) (v : LValue) : List LValue :=
  s.set (resolveIdx s i) v

/-- Model of `lua_rotate` restricted to the top `segLen` stack slots:
rotates that segment by `n` positions towards the top. -/
def stackRotate (s : List LValue) (segLen : Nat) (n : Nat) : List LValue :=
  (s.take segLen).drop n ++ (s.take segLen).take n ++ s.drop segLen

/-- Convert a Lua value to a table key; key kinds outside the modelled flat
key type (tables, functions, userdata as keys) are not representable and
look up as absent. -/
def toKey : LValue → Option LKey
  | .integer n => some (.kint n)
  | .str s => some (.kstr s)
  | .boolean b => some (.kbool b)
  | _ => none

/-- Model of `lua_tointeger`: integers convert to themselves, every other
value converts to 0 (the string-to-number coercion is not exercised by the
shim). -/
def toInteger : LValue → Int
  | .integer n => n
  | _ => 0

/-- Raw table read (`lua_rawget`/`lua_rawgeti`): first binding of the key
in the association list, nil when absent. -/
def tblRawget : List (LKey × LValue) → LKey → LValue
  | [], _ => .nil
  | (k2, v) :: t, k => if k = k2 then v else tblRawget t k

/-- Raw table write (`lua_rawset`/`lua_rawseti`): erase the key and, when
the new value is not nil, bind it; assigning nil deletes the key, exactly
as in Lua. -/
def tblRawset (t : List (LKey × LValue)) (k : LKey) (v : LValue) : List (LKey × LValue) :=
  let t2 := t.filter (fun e => !(e.1 == k))
  if v.isNil then t2 else (k, v) :: t2

/-- Fuel-driven scan used to compute the border of a sequence table:
starting at `i`, count consecutive non-nil integer keys. -/
def tblSeqLenGo (t : List (LKey × LValue)) : Nat → Nat → Nat
  | 0, i => i
  | fuel + 1, i =>
    if (tblRawget t (.kint (i + 1))).isNil then i
    else tblSeqLenGo t fuel (i + 1)

/-- Model of `lua_rawlen` on sequence tables: the length of the initial
run of non-nil values at integer keys 1, 2, 3, ...; the fuel bound by the
number of entries suffices because a border never exceeds it. -/
def tblSeqLen (t : List (LKey × LValue)) : Nat :=
  tblSeqLenGo t t.length 0

/-- Sequence table `[v1, ..., vn]` as the association list mapping integer
key `i` to `vi`. -/
def seqTable (l : List LValue) : List (LKey × LValue) :=
  l.enum.map (fun p => (LKey.kint ((p.1 : Int) + 1), p.2))

/-- Process-wide mlua registration state: the identity keys
`MLUA_WRAPPED_ERROR_KEY` and `MLUA_WRAPPED_PANIC_KEY` (`none` models a
NULL key; a registered key is identified with the metatable id stored
under it in the registry), plus the payload sizes
`MLUA_WRAPPED_ERROR_SIZE` and `MLUA_WRAPPED_PANIC_SIZE`. -/
structure WrapCfg where
  errKey : Option Nat
  panicKey : Option Nat
  errSize : Nat
  panicSize : Nat

/-- Extra stack capacity demanded by `lua_call_rust` before allocating the
Failure Slot: one slot, except `2 - nargs` slots when the call starts with
fewer than two arguments. -/
def trampoline_extra_stack (nargs : Nat) : Nat :=
  if nargs < 2 then 2 - nargs else 1

/-- State handed to the host callback inside `lua_call_rust`: a blank
Failure Slot sized `max(MLUA_WRAPPED_ERROR_SIZE, MLUA_WRAPPED_PANIC_SIZE)`
is allocated by `lua_newuserdata` and rotated to the bottom of the
argument window by `lua_rotate(L, 1, 1)`. -/
def trampoline_prepared (cfg : WrapCfg) (st : LuaState) : LuaState :=
  let ud := LValue.userdata st.nextId none (.blank (max cfg.errSize cfg.panicSize))
  { stack := stackRotate (ud :: st.stack) (st.stack.length + 1) 1
    room := st.room - 1
    nextId := st.nextId + 1 }

/-- The safe callback trampoline `lua_call_rust`: secure stack headroom
(`luaL_checkstack` raises on failure), pre-allocate the Failure Slot,
rotate it below the arguments, invoke the host callback, and either raise
the value it left at the top of the stack (on the sentinel -1, via
`lua_error`) or forward the declared result count unchanged. -/
def lua_call_rust (cfg : WrapCfg) (cb : LuaState → Int × LuaState) (st : LuaState) :
    Except LError (Int × LuaState) :=
  let nargs := st.stack.length
  if st.room < trampoline_extra_stack nargs then
    .error (.luaErr (.str "not enough stack space for callback error handling"))
  else
    let res := cb (trampoline_prepared cfg st)
    if res.1 = -1 then .error (.luaErr (stackTop res.2.stack))
    else .ok res

/-- `is_wrapped_struct`: the inspected value is a full userdata whose
metatable is raw-equal to the registry entry of the given identity key; a
NULL key, a non-userdata value, or a missing metatable all answer no.  The
transient registry and metatable pushes net to zero stack slots. -/
def is_wrapped_struct (key : Option Nat) (v : LValue) : Bool :=
  match key with
  | none => false
  | some mtId =>
    match v with
    | .userdata _ (some mt) _ => mt == mtId
    | _ => false

/-- Free stack slots `luaL_traceback` needs below Lua 5.4 (`shim.c`,
`LUA_TRACEBACK_STACK`). -/
def LUA_TRACEBACK_STACK : Nat := 11

/-- Model of the string pushed by `luaL_traceback` with no message prefix;
it always begins with this non-empty header line. -/
def tracebackStr : String := "stack traceback:"

/-- Model of `luaL_tolstring`: the display form of a value. -/
def luaToDisplay : LValue → String
  | .nil => "nil"
  | .boolean true => "true"
  | .boolean false => "false"
  | .integer n => toString n
  | .str s => s
  | .table _ => "table"
  | .func _ => "function"
  | .userdata _ _ _ => "userdata"

/-- Content of a userdata value; non-userdata values read as an empty
block (never exercised on the paths below). -/
def udContent : LValue → UDContent
  | .userdata _ _ c => c
  | _ => .blank 0

/-- Modelled from the spec: the host finalizer `wrapped_error_traceback`
is external Rust code not present under `src/`; per the spec it "converts
the payload into an augmented error value carrying the call-stack trace",
building the augmented error inside the freshly allocated userdata block
and leaving it as the classifier result in place of the original payload
(without a trace when none could be captured). -/
def wrapped_error_traceback (cfg : WrapCfg) (udId : Nat) (orig : LValue)
    (tb : Option String) : LValue :=
  LValue.userdata udId cfg.errKey (.callbackErr (udContent orig) tb)

/-- The error/panic classifier `error_traceback`: given the error payload
at the top of the stack, pass it through untouched when even 2 extra slots
cannot be secured; augment a `WrappedError` payload through the host
finalizer, with a traceback exactly when 11 further slots remain after the
second Failure Slot allocation; leave `WrappedPanic` payloads (and every
payload when the panic key is NULL in the final branch) untouched; and
decorate any other payload with a best-effort traceback string. -/
def error_traceback (cfg : WrapCfg) (st : LuaState) : Nat × LuaState :=
  if st.room < 2 then
    (1, st)
  else
    let payload := stackTop st.stack
    if is_wrapped_struct cfg.errKey payload then
      let udId := st.nextId
      let hasTb := LUA_TRACEBACK_STACK ≤ st.room - 1
      let tb := if hasTb then some tracebackStr else none
      let augmented := wrapped_error_traceback cfg udId payload tb
      (1, { stack := augmented :: st.stack.tail, room := st.room, nextId := st.nextId + 1 })
    else if cfg.panicKey.isSome ∧ ¬ is_wrapped_struct cfg.panicKey payload
        ∧ LUA_TRACEBACK_STACK ≤ st.room then
      let s := luaToDisplay payload
      let tbv := LValue.str (s ++ "\n" ++ tracebackStr)
      (1, { stack := tbv :: st.stack, room := st.room - 1, nextId := st.nextId })
    else
      (1, st)

/-- Model of `lua_call` adjusting the produced results to exactly one
value: the first result, or nil when none were produced. -/
def callAdjust1 (rs : List LValue) : LValue := rs.headD .nil

/-- Invoke a Lua value through the call oracle: only function values are
callable in the model; calling anything else raises the runtime error Lua
itself would raise. -/
def doCall (call : Nat → List LValue → List LValue) (f : LValue) (args : List LValue) :
    Except LError (List LValue) :=
  match f with
  | .func id => .ok (call id args)
  | _ => .error (.luaErr (.str "attempt to call a non-function value"))

/-- Raw lookup of a key value inside an upvalue: `lua_rawget` demands a
table operand, so any other operand is a C-level API misuse. -/
def upRawget (uv : LValue) (k : LValue) : Except LError LValue :=
  match uv with
  | .table t =>
    .ok (match toKey k with
         | some key => tblRawget t key
         | none => .nil)
  | _ => .error .typeFault

/-- Model of `lua_tostring` as used to name unknown fields in the shim
error messages: strings convert to themselves, integers to their decimal
form; other values give NULL, which the C format prints as `(null)`. -/
def luaFieldName : LValue → String
  | .str s => s
  | .integer n => toString n
  | _ => "(null)"

/-- The `__index` dispatch shim `meta_index_impl`.  Stack on entry (top
first): key, self.  Upvalue 1 is the captured base `__index` fallback,
upvalue 2 the `field_getters` table, upvalue 3 the `methods` table; the
latter two are nil-guarded.  A getter hit is called with self and its
single result returned; a method hit is returned uninvoked; otherwise the
fallback is consulted: nil raises the unknown-field error, a table is
indexed, a function is called with (self, key), and any other value is
left as the returned top of stack. -/
def meta_index_impl (call : Nat → List LValue → List LValue)
    (indexUp gettersUp methodsUp : LValue) (st : LuaState) :
    Except LError (Nat × LuaState) :=
  if st.room < 2 then .error (.luaErr (.str "stack overflow")) else
  let key := stackGet st.stack (-1)
  let self := stackGet st.stack (-2)
  let rest := st.stack.drop 2
  match (if gettersUp.isNil then Except.ok LValue.nil else upRawget gettersUp key) with
  | .error e => .error e
  | .ok ghit =>
    if !ghit.isNil then
      match doCall call ghit [self] with
      | .error e => .error e
      | .ok rs => .ok (1, ⟨callAdjust1 rs :: rest, st.room + 1, st.nextId⟩)
    else
      match (if methodsUp.isNil then Except.ok LValue.nil else upRawget methodsUp key) with
      | .error e => .error e
      | .ok mhit =>
        if !mhit.isNil then
          .ok (1, ⟨mhit :: rest, st.room + 1, st.nextId⟩)
        else
          match indexUp with
          | .nil =>
            .error (.luaErr (.str ("attempt to get an unknown field " ++ luaFieldName key)))
          | .table tt =>
            .ok (1, ⟨(match toKey key with
                      | some k2 => tblRawget tt k2
                      | none => .nil) :: .table tt :: self :: rest, st.room - 1, st.nextId⟩)
          | .func fid =>
            .ok (1, ⟨callAdjust1 (call fid [self, key]) :: rest, st.room + 1, st.nextId⟩)
          | other =>
            .ok (1, ⟨other :: key :: self :: rest, st.room - 1, st.nextId⟩)

/-- The `__newindex` dispatch shim `meta_newindex_impl`.  Stack on entry
(top first): value, key, self.  Upvalue 1 is the captured base
`__newindex` fallback, upvalue 2 the `field_setters` table, consulted by
raw lookup WITHOUT a nil guard (the C comment states the shim is used only
when `field_setters` is set). -/
def meta_newindex_impl (call : Nat → List LValue → List LValue)
    (newindexUp settersUp : LValue) (st : LuaState) :
    Except LError (Nat × LuaState) :=
  if st.room < 2 then .error (.luaErr (.str "stack overflow")) else
  let value := stackGet st.stack (-1)
  let key := stackGet st.stack (-2)
  let self := stackGet st.stack (-3)
  let rest := st.stack.drop 3
  match upRawget settersUp key with
  | .error e => .error e
  | .ok sfun =>
    if !sfun.isNil then
      match doCall call sfun [self, value] with
      | .error e => .error e
      | .ok _ => .ok (0, ⟨rest, st.room + 3, st.nextId⟩)
    else
      match newindexUp with
      | .nil =>
        .error (.luaErr (.str ("attempt to set an unknown field " ++ luaFieldName key)))
      | .table tt =>
        .ok (0, ⟨.table (match toKey key with
                         | some k2 => tblRawset tt k2 value
                         | none => tt) :: self :: rest, st.room + 1, st.nextId⟩)
      | .func fid =>
        match doCall call (.func fid) [self, key, value] with
        | .error e => .error e
        | .ok _ => .ok (0, ⟨rest, st.room + 3, st.nextId⟩)
      | other =>
        .ok (0, ⟨other :: value :: key :: self :: rest, st.room - 1, st.nextId⟩)

/-- Copy the bound values captured in upvalues 3, 4, ... into the absolute
stack slots starting at `i` (the C loop body `lua_pushvalue` followed by
`lua_replace(state, i + 2)`). -/
def bindFill (s : List LValue) (binds : List LValue) (i : Int) : List LValue :=
  match binds with
  | [] => s
  | b :: bs => bindFill (stackSet s i b) bs (i + 1)

/-- The bound-call shim `bind_call_impl`.  Upvalue 1 is the base callable,
upvalue 2 the number of bound arguments, upvalues 3 onward the bound
values in creation order; the stack holds the call-time arguments.  The
stack is grown by `lua_settop`, rotated so the fresh slots sit below the
call-time arguments, the base callable and the bound values are copied
into those slots, and the base callable is invoked with everything,
forwarding all its results (`LUA_MULTRET`). -/
def bind_call_impl (call : Nat → List LValue → List LValue)
    (fnUp : LValue) (binds : List LValue) (st : LuaState) :
    Except LError (Nat × LuaState) :=
  let nargs := st.stack.length
  let nbinds := binds.length
  if st.room < nbinds + 2 then .error (.luaErr (.str "stack overflow")) else
  let s1 := List.replicate (nbinds + 1) LValue.nil ++ st.stack
  let s2 := stackRotate s1 (nargs + nbinds + 1) (nbinds + 1)
  let s3 := stackSet s2 1 fnUp
  let s4 := bindFill s3 binds 2
  match s4.reverse with
  | f :: args =>
    match doCall call f args with
    | .error e => .error e
    | .ok rs =>
      .ok (rs.length,
        ⟨rs.reverse, st.room - (nbinds + 1) + (nargs + nbinds + 1) - rs.length, st.nextId⟩)
  | [] => .error .typeFault

/-- Shift loop of `lua_rawinsert_s`: for `i` descending from
`index + count - 1` down to `index`, set `t[i + 1] = t[i]`. -/
def shiftUpLoop (t : List (LKey × LValue)) (index : Int) : Nat → List (LKey × LValue)
  | 0 => t
  | c + 1 =>
    shiftUpLoop (tblRawset t (.kint (index + c + 1)) (tblRawget t (.kint (index + c)))) index c

/-- Shift loop of `lua_rawremove_s`: for `i` ascending from `index`
through `index + count - 1`, set `t[i] = t[i + 1]`. -/
def shiftDownLoop (t : List (LKey × LValue)) (index : Int) : Nat → List (LKey × LValue)
  | 0 => t
  | c + 1 =>
    shiftDownLoop (tblRawset t (.kint index) (tblRawget t (.kint (index + 1)))) (index + 1) c

/-- `lua_rawinsert_s`: stack on entry (top first) is the target index, the
value to insert, the table.  Pops the index, shifts `t[i]` to `t[i + 1]`
for `i` from the raw length down to the index, then stores the value at
the index. -/
def lua_rawinsert_s (st : LuaState) : Except LError (Nat × LuaState) :=
  match st.stack with
  | idxv :: value :: .table t :: rest =>
    let index := toInteger idxv
    let size : Int := tblSeqLen t
    let t1 := shiftUpLoop t index ((size - index + 1).toNat)
    let t2 := tblRawset t1 (.kint index) value
    .ok (0, ⟨.table t2 :: rest, st.room + 2, st.nextId⟩)
  | _ => .error .typeFault

/-- `lua_rawremove_s`: stack on entry (top first) is the target index, the
table.  Pops the index, shifts `t[i + 1]` to `t[i]` for `i` from the index
up to the raw length minus one, then clears the last slot. -/
def lua_rawremove_s (st : LuaState) : Except LError (Nat × LuaState) :=
  match st.stack with
  | idxv :: .table t :: rest =>
    let index := toInteger idxv
    let size : Int := tblSeqLen t
    let t1 := shiftDownLoop t index ((size - index).toNat)
    let t2 := tblRawset t1 (.kint size) .nil
    .ok (0, ⟨.table t2 :: rest, st.room + 1, st.nextId⟩)
  | _ => .error .typeFault

/-- Value form of a table key, as `lua_next` pushes the key back. -/
def keyToVal : LKey → LValue
  | .kint n => .integer n
  | .kstr s => .str s
  | .kbool b => .boolean b

/-- Entry following the first binding of a key in the association list. -/
def nextAfter : List (LKey × LValue) → LKey → Option (LKey × LValue)
  | [], _ => none
  | (k2, _) :: rest, k => if k = k2 then rest.head? else nextAfter rest k

/-- Model of `lua_next` traversal on the association-list table: a nil
cursor starts at the first entry, any other cursor resumes after its first
binding; past the end, or on an empty table, the traversal is exhausted. -/
def nextPair (t : List (LKey × LValue)) (cursor : LValue) : Option (LKey × LValue) :=
  match cursor with
  | .nil => t.head?
  | c =>
    match toKey c with
    | none => none
    | some k => nextAfter t k

/-- `lua_next_s`: stack on entry (top first) is the iteration cursor, the
table.  `lua_next` pops the cursor and either pushes the next key/value
pair (the shim then pushes 1 and declares 3 results) or pushes nothing on
exhaustion (the shim then pushes 0 and declares 1 result). -/
def lua_next_s (st : LuaState) : Except LError (Nat × LuaState) :=
  match st.stack with
  | cursor :: .table t :: rest =>
    match nextPair t cursor with
    | some (k, v) =>
      .ok (3, ⟨.integer 1 :: v :: keyToVal k :: .table t :: rest, st.room - 2, st.nextId⟩)
    | none =>
      .ok (1, ⟨.integer 0 :: .table t :: rest, st.room, st.nextId⟩)
  | _ => .error .typeFault

/-- Extensional equality of tables: same raw lookup result at every key.
Two association lists that differ only in binding order or in explicit
nil entries denote the same Lua table. -/
def tblEquiv (t1 t2 : List (LKey × LValue)) : Prop :=
  ∀ k, tblRawget t1 k = tblRawget t2 k

/-- The extra-capacity formula asserted by the specification for the
trampoline, written from the spec words for comparison with the source
formula `trampoline_extra_stack`: `max(0, 2 - arg_count) + 1`. -/
def spec_extra_stack (nargs : Nat) : Int :=
  max 0 (2 - (nargs : Int)) + 1

theorem isNil_eq_false {v : LValue} (h : v ≠ .nil) : v.isNil = false := by
  cases v <;> simp [LValue.isNil] at h ⊢

theorem tblRawget_filter_ne (t : List (LKey × LValue)) (k k2 : LKey) (h : k2 ≠ k) :
    tblRawget (t.filter (fun e => !(e.1 == k))) k2 = tblRawget t k2 := by
  induction t with
  | nil => rfl
  | cons e t ih =>
    obtain ⟨k1, v⟩ := e
    by_cases he : k1 = k
    · subst he
      simp [List.filter_cons, tblRawget, h, ih]
    · simp [List.filter_cons, tblRawget, he, ih]

theorem tblRawget_filter_self (t : List (LKey × LValue)) (k : LKey) :
    tblRawget (t.filter (fun e => !(e.1 == k))) k = .nil := by
  induction t with
  | nil => rfl
  | cons e t ih =>
    obtain ⟨k1, v⟩ := e
    by_cases he : k1 = k
    · simp [List.filter_cons, he, ih]
    · simp [List.filter_cons, tblRawget, he, ih, Ne.symm he]

theorem tblRawget_tblRawset (t : List (LKey × LValue)) (k k2 : LKey) (v : LValue) :
    tblRawget (tblRawset t k v) k2 = if k2 = k then v else tblRawget t k2 := by
  unfold tblRawset
  by_cases hv : v.isNil
  · have hvn : v = .nil := by cases v <;> simp [LValue.isNil] at hv ⊢
    subst hvn
    by_cases hk : k2 = k
    · subst hk
      simp [LValue.isNil, tblRawget_filter_self]
    · simp [LValue.isNil, hk, tblRawget_filter_ne t k k2 hk]
  · by_cases hk : k2 = k
    · subst hk
      simp [hv, tblRawget]
    · simp [hv, tblRawget, hk, tblRawget_filter_ne t k k2 hk]

/-- C8: table insert-at-index and remove-at-index act as a shift of the
affected slice: inserting `new` at index 2 of the sequence `[a, b, c]`
yields a table equal, as a Lua table, to `[a, new, b, c]`, and removing
index 2 from `[a, b, c, d]` yields `[a, c, d]`; elements before the index
are unchanged.  The shifts are the per-slot loops `shiftUpLoop` and
`shiftDownLoop` over the affected slice, hence O(n). -/
theorem rawinsert_rawremove_shift (a b c d new : LValue) (rest : List LValue)
    (room nid : Nat)
    (ha : a ≠ .nil) (hb : b ≠ .nil) (hc : c ≠ .nil) (hd : d ≠ .nil) :
    (∃ t2, lua_rawinsert_s ⟨.integer 2 :: new :: .table (seqTable [a, b, c]) :: rest, room, nid⟩
        = .ok (0, ⟨.table t2 :: rest, room + 2, nid⟩)
      ∧ tblEquiv t2 (seqTable [a, new, b, c]))
    ∧ (∃ t2, lua_rawremove_s ⟨.integer 2 :: .table (seqTable [a, b, c, d]) :: rest, room, nid⟩
        = .ok (0, ⟨.table t2 :: rest, room + 1, nid⟩)
      ∧ tblEquiv t2 (seqTable [a, c, d])) := by
  have hseq3 : seqTable [a, b, c] = [(.kint 1, a), (.kint 2, b), (.kint 3, c)] := rfl
  have hseq4 : seqTable [a, b, c, d]
      = [(.kint 1, a), (.kint 2, b), (.kint 3, c), (.kint 4, d)] := rfl
  have hlen3 : tblSeqLen (seqTable [a, b, c]) = 3 := by
    rw [hseq3]
    simp [tblSeqLen, tblSeqLenGo, tblRawget,
      isNil_eq_false ha, isNil_eq_false hb, isNil_eq_false hc]
  have hlen4 : tblSeqLen (seqTable [a, b, c, d]) = 4 := by
    rw [hseq4]
    simp [tblSeqLen, tblSeqLenGo, tblRawget,
      isNil_eq_false ha, isNil_eq_false hb, isNil_eq_false hc, isNil_eq_false hd]
  constructor
  · refine ⟨tblRawset (shiftUpLoop (seqTable [a, b, c]) 2 2) (.kint 2) new, ?_, ?_⟩
    · simp [lua_rawinsert_s, toInteger, hlen3]
    · intro k
      rw [hseq3]
      simp only [shiftUpLoop, tblRawget_tblRawset, seqTable, List.enum, List.map]
      norm_num [tblRawget]
      split_ifs <;> simp_all
  · refine ⟨tblRawset (shiftDownLoop (seqTable [a, b, c, d]) 2 2) (.kint 4) .nil, ?_, ?_⟩
    · simp [lua_rawremove_s, toInteger, hlen4]
    · intro k
      rw [hseq4]
      simp only [shiftDownLoop, tblRawget_tblRawset, seqTable, List.enum, List.map]
      norm_num [tblRawget]
      split_ifs <;> simp_all

/-- C9: an iteration step on an empty mapping immediately signals
exhaustion: `lua_next` pops the nil cursor and pushes no key/value pair,
and the shim pushes only the status 0 and declares a single result, so the
stack holds exactly the exhaustion status above the unchanged table (its
length is the same as on entry: zero extra values beyond the status). -/
theorem lua_next_s_empty (rest : List LValue) (room nid : Nat) :
    lua_next_s ⟨.nil :: .table [] :: rest, room, nid⟩
      = .ok (1, ⟨.integer 0 :: .table [] :: rest, room, nid⟩) := rfl

/-- C3 counterexample: at zero arguments the trampoline secures 2 extra
slots, not the `max(0, 2 - 0) + 1 = 3` the claim asserts (the source sets
`extra_stack = 2 - nargs` for fewer than two arguments, which already
counts the Failure-Slot slot). -/
theorem trampoline_extra_stack_cex :
    (trampoline_extra_stack 0 : Int) ≠ spec_extra_stack 0 := by decide

/-- C3 amended: the extra stack capacity `lua_call_rust` secures before
allocating the Failure Slot equals `max(2 - arg_count, 1)`: 2 slots for 0
arguments, 1 slot for 1 argument, and 1 slot for 2 or more arguments. -/
theorem trampoline_extra_stack_eq (nargs : Nat) :
    (trampoline_extra_stack nargs : Int) = max (2 - (nargs : Int)) 1 := by
  unfold trampoline_extra_stack
  split <;> omega

/-- C5: if even 2 extra stack slots cannot be secured at the start of
classification, `error_traceback` does nothing and passes the payload
through unmodified, whatever the payload is. -/
theorem error_traceback_no_room (cfg : WrapCfg) (st : LuaState) (h : st.room < 2) :
    error_traceback cfg st = (1, st) := by
  simp [error_traceback, h]

/-- Witness for `error_traceback_no_room` at a concrete state with one
free slot and a wrapped-error payload that would otherwise be augmented. -/
theorem error_traceback_no_room_witness :
    (1 : Nat) < 2 ∧
    error_traceback ⟨some 0, some 1, 4, 4⟩ ⟨[.userdata 5 (some 0) (.hostErr 7)], 1, 9⟩
      = (1, ⟨[.userdata 5 (some 0) (.hostErr 7)], 1, 9⟩) :=
  ⟨by decide, error_traceback_no_room ⟨some 0, some 1, 4, 4⟩
    ⟨[.userdata 5 (some 0) (.hostErr 7)], 1, 9⟩ (by decide)⟩

/-- C1: under the callback contract, the trampoline raises a foreign error
whose payload is exactly the pre-allocated Failure Slot userdata (the one
allocated with id `st.nextId` in this invocation) carrying whatever the
callback last wrote into it, whenever the callback answers the sentinel
-1 and leaves that slot at the top of the stack; and whenever the callback
answers a non-negative count `r`, the trampoline forwards exactly `r` as
its declared return count without raising. -/
theorem lua_call_rust_contract (cfg : WrapCfg) (cb : LuaState → Int × LuaState)
    (st st2 : LuaState) (r : Int)
    (hroom : trampoline_extra_stack st.stack.length ≤ st.room)
    (hcb : cb (trampoline_prepared cfg st) = (r, st2)) :
    (∀ mtv c, r = -1 →
        stackTop st2.stack = .userdata st.nextId mtv c →
        lua_call_rust cfg cb st = .error (.luaErr (.userdata st.nextId mtv c)))
    ∧ (0 ≤ r → lua_call_rust cfg cb st = .ok (r, st2)) := by
  constructor
  · intro mtv c hr htop
    subst hr
    simp [lua_call_rust, Nat.not_lt.mpr hroom, hcb, htop]
  · intro hr
    have hne : r ≠ -1 := by omega
    simp [lua_call_rust, Nat.not_lt.mpr hroom, hcb, hne]

/-- Witness for `lua_call_rust_contract`: a concrete failing callback
that writes a host error into the Failure Slot and leaves the slot at the
top; the trampoline raises exactly that slot value. -/
theorem lua_call_rust_contract_witness :
    trampoline_extra_stack ([] : List LValue).length ≤ 5 ∧
    (fun _ : LuaState => ((-1 : Int), (⟨[.userdata 0 none (.hostErr 3)], 9, 1⟩ : LuaState)))
        (trampoline_prepared ⟨some 0, some 1, 4, 4⟩ ⟨[], 5, 0⟩)
      = (-1, ⟨[.userdata 0 none (.hostErr 3)], 9, 1⟩) ∧
    lua_call_rust ⟨some 0, some 1, 4, 4⟩
        (fun _ => (-1, ⟨[.userdata 0 none (.hostErr 3)], 9, 1⟩)) ⟨[], 5, 0⟩
      = .error (.luaErr (.userdata 0 none (.hostErr 3))) :=
  ⟨by decide, rfl,
    (lua_call_rust_contract ⟨some 0, some 1, 4, 4⟩
      (fun _ => (-1, ⟨[.userdata 0 none (.hostErr 3)], 9, 1⟩))
      ⟨[], 5, 0⟩ ⟨[.userdata 0 none (.hostErr 3)], 9, 1⟩ (-1)
      (by decide) rfl).1 none (.hostErr 3) rfl rfl⟩

theorem is_wrapped_struct_disjoint (k1 k2 : Option Nat) (v : LValue)
    (hne : k1 ≠ k2) (h : is_wrapped_struct k2 v = true) :
    is_wrapped_struct k1 v = false := by
  unfold is_wrapped_struct at h ⊢
  cases k2 with
  | none => simp at h
  | some m2 =>
    cases k1 with
    | none => rfl
    | some m1 =>
      cases v with
      | userdata id mt c =>
        cases mt with
        | none => rfl
        | some m =>
          simp at h ⊢
          subst h
          intro hcon
          exact hne (by rw [hcon])
      | nil => rfl
      | boolean b => rfl
      | integer n => rfl
      | str s => rfl
      | table t => rfl
      | func i => rfl

/-- C2 counterexample: with no panic key registered but the error key
registered, a WrappedError payload is not passed through untouched — the
classifier still runs the recoverable-error branch and replaces it, so
"every payload is untouched when no fault-kind key is registered" fails. -/
theorem error_traceback_nopanic_cex :
    error_traceback ⟨some 0, none, 4, 4⟩ ⟨[.userdata 5 (some 0) (.hostErr 7)], 12, 9⟩
      ≠ (1, ⟨[.userdata 5 (some 0) (.hostErr 7)], 12, 9⟩) := by
  intro h
  have h2 := congrArg (fun p => p.2.nextId) h
  simp [error_traceback, is_wrapped_struct, stackTop, wrapped_error_traceback,
    LUA_TRACEBACK_STACK] at h2

/-- C2 amended: a payload matching the registered WrappedPanic key (the
two identity keys being registered distinctly) is returned with the whole
state untouched, with no stack mutation beyond the transient type-tag
inspection and without raising; and when no fault-kind key is registered,
the same holds for every payload that does not match the recoverable-error
key. -/
theorem error_traceback_untouched (cfg : WrapCfg) (st : LuaState) :
    (cfg.errKey ≠ cfg.panicKey →
        is_wrapped_struct cfg.panicKey (stackTop st.stack) = true →
        error_traceback cfg st = (1, st))
    ∧ (cfg.panicKey = none →
        is_wrapped_struct cfg.errKey (stackTop st.stack) = false →
        error_traceback cfg st = (1, st)) := by
  constructor
  · intro hne hmatch
    have herr : is_wrapped_struct cfg.errKey (stackTop st.stack) = false :=
      is_wrapped_struct_disjoint cfg.errKey cfg.panicKey (stackTop st.stack) hne hmatch
    unfold error_traceback
    split
    · rfl
    · simp [herr, hmatch]
  · intro hnp hmiss
    unfold error_traceback
    split
    · rfl
    · simp [hmiss, hnp]

/-- Witness for `error_traceback_untouched`: a concrete WrappedPanic
payload under distinctly registered keys passes through untouched. -/
theorem error_traceback_untouched_witness :
    (some 0 : Option Nat) ≠ some 1 ∧
    is_wrapped_struct (some 1) (stackTop [LValue.userdata 5 (some 1) (.hostPanic 7)]) = true ∧
    error_traceback ⟨some 0, some 1, 4, 4⟩ ⟨[.userdata 5 (some 1) (.hostPanic 7)], 20, 9⟩
      = (1, ⟨[.userdata 5 (some 1) (.hostPanic 7)], 20, 9⟩) :=
  ⟨by decide, by decide,
    (error_traceback_untouched ⟨some 0, some 1, 4, 4⟩
      ⟨[.userdata 5 (some 1) (.hostPanic 7)], 20, 9⟩).1 (by decide) (by decide)⟩

/-- C4 counterexample: with exactly 12 extra stack slots available — fewer
than the claimed 13 — the classifier still attaches a traceback to a
WrappedError payload: after the second Failure Slot allocation consumes
one slot, `lua_checkstack(state, 11)` succeeds with the remaining 11. -/
theorem error_traceback_threshold_cex :
    error_traceback ⟨some 0, some 1, 4, 4⟩ ⟨[.userdata 5 (some 0) (.hostErr 7)], 12, 9⟩
      = (1, ⟨[.userdata 9 (some 0) (.callbackErr (.hostErr 7) (some tracebackStr))],
             12, 10⟩) := rfl

/-- C4 amended: classifying a WrappedError payload yields a payload
containing the original error plus a non-empty traceback string whenever
at least 12 extra stack slots were available, and yields a payload
containing the original error without any traceback when at least 2 but
fewer than 12 were available (below 2 the payload passes through
untouched). -/
theorem error_traceback_wrapped_tb (cfg : WrapCfg) (st : LuaState)
    (hmatch : is_wrapped_struct cfg.errKey (stackTop st.stack) = true) :
    (12 ≤ st.room →
        error_traceback cfg st
          = (1, ⟨wrapped_error_traceback cfg st.nextId (stackTop st.stack)
                    (some tracebackStr) :: st.stack.tail,
                 st.room, st.nextId + 1⟩)
          ∧ tracebackStr ≠ "")
    ∧ (2 ≤ st.room → st.room < 12 →
        error_traceback cfg st
          = (1, ⟨wrapped_error_traceback cfg st.nextId (stackTop st.stack) none
                    :: st.stack.tail,
                 st.room, st.nextId + 1⟩)) := by
  constructor
  · intro hroom
    have h1 : ¬ st.room < 2 := by omega
    have h2 : LUA_TRACEBACK_STACK ≤ st.room - 1 := by
      unfold LUA_TRACEBACK_STACK; omega
    constructor
    · simp [error_traceback, h1, hmatch, h2]
    · simp [tracebackStr]
  · intro hlo hhi
    have h1 : ¬ st.room < 2 := by omega
    have h2 : ¬ LUA_TRACEBACK_STACK ≤ st.room - 1 := by
      unfold LUA_TRACEBACK_STACK; omega
    simp [error_traceback, h1, hmatch, h2]

/-- Witness for `error_traceback_wrapped_tb`: a concrete WrappedError
payload with 20 free slots gains a non-empty traceback, and the same
payload with 5 free slots is augmented without one. -/
theorem error_traceback_wrapped_tb_witness :
    is_wrapped_struct (some 0) (stackTop [LValue.userdata 5 (some 0) (.hostErr 7)]) = true ∧
    (12 ≤ 20 ∧ 2 ≤ 5 ∧ 5 < 12) ∧
    (error_traceback ⟨some 0, some 1, 4, 4⟩ ⟨[.userdata 5 (some 0) (.hostErr 7)], 20, 9⟩
        = (1, ⟨[.userdata 9 (some 0) (.callbackErr (.hostErr 7) (some tracebackStr))],
               20, 10⟩)
      ∧ tracebackStr ≠ "") ∧
    error_traceback ⟨some 0, some 1, 4, 4⟩ ⟨[.userdata 5 (some 0) (.hostErr 7)], 5, 9⟩
      = (1, ⟨[.userdata 9 (some 0) (.callbackErr (.hostErr 7) none)], 5, 10⟩) :=
  ⟨by decide, by omega,
    (error_traceback_wrapped_tb ⟨some 0, some 1, 4, 4⟩
      ⟨[.userdata 5 (some 0) (.hostErr 7)], 20, 9⟩ (by decide)).1 (by decide),
    (error_traceback_wrapped_tb ⟨some 0, some 1, 4, 4⟩
      ⟨[.userdata 5 (some 0) (.hostErr 7)], 5, 9⟩ (by decide)).2 (by decide) (by decide)⟩

theorem stackGet_neg_one (v : LValue) (s : List LValue) : stackGet (v :: s) (-1) = v := by
  simp [stackGet, resolveIdx]

theorem stackGet_neg_two (v w : LValue) (s : List LValue) :
    stackGet (v :: w :: s) (-2) = w := by
  simp [stackGet, resolveIdx]

theorem stackGet_neg_three (v w x : LValue) (s : List LValue) :
    stackGet (v :: w :: x :: s) (-3) = x := by
  simp [stackGet, resolveIdx]

/-- C6: attribute-read dispatch precedence of `meta_index_impl`.  With the
key present in the getter table, the getter is invoked with the object and
its single adjusted result returned, whatever the methods upvalue holds
(the method mapping is never consulted); with the key absent there and
present in the method table, the method value itself is returned
uninvoked; with both absent, the captured base fallback decides: nil
raises the unknown-field error naming the key, a table is indexed
directly, and a callable is invoked with the object and the key. -/
theorem meta_index_dispatch (call : Nat → List LValue → List LValue)
    (gt mt : List (LKey × LValue)) (key self : LValue) (kk : LKey)
    (rest : List LValue) (room nid : Nat)
    (hroom : 2 ≤ room) (hkey : toKey key = some kk) :
    (∀ gid fb mv, tblRawget gt kk = .func gid →
        meta_index_impl call fb (.table gt) mv ⟨key :: self :: rest, room, nid⟩
          = .ok (1, ⟨callAdjust1 (call gid [self]) :: rest, room + 1, nid⟩))
    ∧ (∀ m fb, tblRawget gt kk = .nil → tblRawget mt kk = m → m.isNil = false →
        meta_index_impl call fb (.table gt) (.table mt) ⟨key :: self :: rest, room, nid⟩
          = .ok (1, ⟨m :: rest, room + 1, nid⟩))
    ∧ (tblRawget gt kk = .nil → tblRawget mt kk = .nil →
        meta_index_impl call .nil (.table gt) (.table mt) ⟨key :: self :: rest, room, nid⟩
          = .error (.luaErr (.str ("attempt to get an unknown field " ++ luaFieldName key))))
    ∧ (∀ tt, tblRawget gt kk = .nil → tblRawget mt kk = .nil →
        meta_index_impl call (.table tt) (.table gt) (.table mt)
            ⟨key :: self :: rest, room, nid⟩
          = .ok (1, ⟨(match toKey key with
                      | some k2 => tblRawget tt k2
                      | none => .nil) :: .table tt :: self :: rest, room - 1, nid⟩))
    ∧ (∀ fid, tblRawget gt kk = .nil → tblRawget mt kk = .nil →
        meta_index_impl call (.func fid) (.table gt) (.table mt)
            ⟨key :: self :: rest, room, nid⟩
          = .ok (1, ⟨callAdjust1 (call fid [self, key]) :: rest, room + 1, nid⟩)) := by
  have hnl : ¬ room < 2 := Nat.not_lt.mpr hroom
  refine ⟨?_, ?_, ?_, ?_, ?_⟩
  · intro gid fb mv hget
    simp [meta_index_impl, hnl, stackGet_neg_one, stackGet_neg_two, upRawget,
      hkey, hget, LValue.isNil, doCall]
  · intro m fb hg hm hmn
    unfold LValue.isNil at hmn
    simp [meta_index_impl, hnl, stackGet_neg_one, stackGet_neg_two, upRawget,
      hkey, hg, hm, LValue.isNil, hmn]
  · intro hg hm
    simp [meta_index_impl, hnl, stackGet_neg_one, stackGet_neg_two, upRawget,
      hkey, hg, hm, LValue.isNil]
  · intro tt hg hm
    simp [meta_index_impl, hnl, stackGet_neg_one, stackGet_neg_two, upRawget,
      hkey, hg, hm, LValue.isNil]
  · intro fid hg hm
    simp [meta_index_impl, hnl, stackGet_neg_one, stackGet_neg_two, upRawget,
      hkey, hg, hm, LValue.isNil, doCall]

/-- Witness for `meta_index_dispatch`: with both a getter and a method
registered for key 3, reading key 3 invokes the getter (oracle result
tagged with the getter id 1), never the method. -/
theorem meta_index_dispatch_witness :
    2 ≤ 5 ∧ toKey (.integer 3) = some (.kint 3) ∧
    tblRawget [(LKey.kint 3, LValue.func 1)] (.kint 3) = .func 1 ∧
    meta_index_impl (fun fid _ => [.integer (fid : Int)]) .nil
        (.table [(.kint 3, .func 1)]) (.table [(.kint 3, .func 2)])
        ⟨[.integer 3, .integer 42], 5, 0⟩
      = .ok (1, ⟨[.integer 1], 6, 0⟩) :=
  ⟨by decide, rfl, rfl,
    (meta_index_dispatch (fun fid _ => [.integer (fid : Int)])
      [(.kint 3, .func 1)] [(.kint 3, .func 2)] (.integer 3) (.integer 42) (.kint 3)
      [] 5 0 (by decide) rfl).1 1 .nil (.table [(.kint 3, .func 2)]) rfl⟩

theorem set_append_length (l1 l2 : List LValue) (x v : LValue) :
    (l1 ++ x :: l2).set l1.length v = l1 ++ v :: l2 := by
  induction l1 with
  | nil => rfl
  | cons a t ih => simp [List.set, ih]

theorem bindFill_spec (binds front back : List LValue) :
    bindFill (front ++ (List.replicate binds.length LValue.nil ++ back)) binds
        ((back.length : Int) + 1)
      = front ++ (binds.reverse ++ back) := by
  induction binds generalizing back with
  | nil => simp [bindFill]
  | cons b bs ih =>
    have h1 : front ++ (List.replicate (b :: bs).length LValue.nil ++ back)
        = (front ++ List.replicate bs.length LValue.nil) ++ (LValue.nil :: back) := by
      simp only [List.length_cons, List.replicate_succ']
      simp
    have hset : stackSet ((front ++ List.replicate bs.length LValue.nil) ++ (LValue.nil :: back))
        ((back.length : Int) + 1) b
        = (front ++ List.replicate bs.length LValue.nil) ++ (b :: back) := by
      unfold stackSet resolveIdx
      rw [if_pos (by positivity)]
      have hidx : ((front ++ List.replicate bs.length LValue.nil) ++ (LValue.nil :: back)).length
          - (((back.length : Int) + 1)).toNat
          = (front ++ List.replicate bs.length LValue.nil).length := by
        simp
        omega
      rw [hidx]
      exact set_append_length _ _ _ _
    simp only [bindFill, h1, hset]
    have h2 : ((front ++ List.replicate bs.length LValue.nil) ++ (b :: back))
        = front ++ (List.replicate bs.length LValue.nil ++ (b :: back)) := by
      simp
    have h3 : ((back.length : Int) + 1 + 1) = (((b :: back).length : Int) + 1) := by
      simp
    rw [h2, h3, ih (b :: back)]
    simp

/-- C7: a bound call with `b` arguments captured at closure creation and
`c` call-time arguments invokes the base callable with exactly the `b + c`
arguments, ordered as the bound values in creation order followed by the
call-time arguments in call order, and forwards every result the base
callable produces, declaring their count. -/
theorem bind_call_forward (call : Nat → List LValue → List LValue)
    (fid : Nat) (binds : List LValue) (st : LuaState)
    (hroom : binds.length + 2 ≤ st.room) :
    bind_call_impl call (.func fid) binds st
      = .ok ((call fid (binds ++ st.stack.reverse)).length,
          ⟨(call fid (binds ++ st.stack.reverse)).reverse,
           st.room - (binds.length + 1) + (st.stack.length + binds.length + 1)
             - (call fid (binds ++ st.stack.reverse)).length,
           st.nextId⟩) := by
  have hnl : ¬ st.room < binds.length + 2 := Nat.not_lt.mpr hroom
  have hs2 : stackRotate (List.replicate (binds.length + 1) LValue.nil ++ st.stack)
      (st.stack.length + binds.length + 1) (binds.length + 1)
      = st.stack ++ List.replicate (binds.length + 1) LValue.nil := by
    unfold stackRotate
    have hlen : (List.replicate (binds.length + 1) LValue.nil ++ st.stack).length
        ≤ st.stack.length + binds.length + 1 := by
      simp
      omega
    rw [List.take_of_length_le hlen, List.drop_eq_nil_of_le hlen,
      List.drop_left' (by simp), List.take_left' (by simp)]
    simp
  have hs3 : stackSet (st.stack ++ List.replicate (binds.length + 1) LValue.nil) 1 (.func fid)
      = st.stack ++ (List.replicate binds.length LValue.nil ++ [LValue.func fid]) := by
    unfold stackSet resolveIdx
    rw [if_pos (by norm_num)]
    have h1 : st.stack ++ List.replicate (binds.length + 1) LValue.nil
        = (st.stack ++ List.replicate binds.length LValue.nil) ++ (LValue.nil :: []) := by
      simp [List.replicate_succ']
    rw [h1]
    have hidx : ((st.stack ++ List.replicate binds.length LValue.nil)
        ++ (LValue.nil :: [])).length - ((1 : Int)).toNat
        = (st.stack ++ List.replicate binds.length LValue.nil).length := by
      simp
    rw [hidx, set_append_length]
    simp
  have hs4 : bindFill (st.stack ++ (List.replicate binds.length LValue.nil
        ++ [LValue.func fid])) binds 2
      = st.stack ++ (binds.reverse ++ [LValue.func fid]) := by
    have h2 : (2 : Int) = (([LValue.func fid] : List LValue).length : Int) + 1 := by simp
    rw [h2]
    exact bindFill_spec binds st.stack [LValue.func fid]
  have hrev : (st.stack ++ (binds.reverse ++ [LValue.func fid])).reverse
      = LValue.func fid :: (binds ++ st.stack.reverse) := by
    simp
  unfold bind_call_impl
  rw [if_neg hnl]
  simp only [hs2, hs3, hs4, hrev]
  simp [doCall]

/-- Witness for `bind_call_forward`: two bound arguments and two call-time
arguments reach the base callable as the four-element list bound-then-call
order, and all five oracle results are forwarded. -/
theorem bind_call_forward_witness :
    2 + 2 ≤ 9 ∧
    bind_call_impl (fun fid args => .integer (fid : Int) :: args) (.func 77)
        [.integer 101, .integer 102] ⟨[.integer 2, .integer 1], 9, 0⟩
      = .ok (5, ⟨[.integer 2, .integer 1, .integer 102, .integer 101, .integer 77],
                 9 - 3 + 5 - 5, 0⟩) :=
  ⟨by decide,
    bind_call_forward (fun fid args => .integer (fid : Int) :: args) 77
      [.integer 101, .integer 102] ⟨[.integer 2, .integer 1], 9, 0⟩ (by decide)⟩

/-- C10: `meta_newindex_impl` consults its setter-mapping upvalue by raw
lookup with no nil guard, so the C-level misuse fault of `lua_rawget` is
avoided only by the caller precondition that the upvalue is a table; under
that precondition the fault branch is unreachable for every input (the
shim may still raise ordinary Lua errors, never the API misuse), while a
nil setter upvalue does reach the fault — unlike `meta_index_impl`, whose
nil-guarded getter and method upvalues leave it fault-free when nil. -/
theorem meta_newindex_guard (call : Nat → List LValue → List LValue)
    (fb : LValue) (t : List (LKey × LValue)) (st : LuaState) :
    meta_newindex_impl call fb (.table t) st ≠ .error .typeFault
    ∧ meta_newindex_impl (fun _ _ => []) .nil .nil
        ⟨[.integer 9, .str "k", .integer 42], 5, 0⟩ = .error .typeFault
    ∧ meta_index_impl (fun _ _ => []) .nil .nil .nil
        ⟨[.str "k", .integer 42], 5, 0⟩ ≠ .error .typeFault := by
  refine ⟨?_, ?_, ?_⟩
  · intro h
    unfold meta_newindex_impl at h
    split at h
    · simp at h
    · simp only [upRawget] at h
      generalize (match toKey (stackGet st.stack (-2)) with
                  | some key => tblRawget t key
                  | none => LValue.nil) = sfun at h
      cases sfun <;> cases fb <;> simp_all [doCall, LValue.isNil]
  · rfl
  · intro h
    have h2 : Except.error (LError.luaErr
        (LValue.str ("attempt to get an unknown field " ++ luaFieldName (.str "k"))))
        = (Except.error LError.typeFault : Except LError (Nat × LuaState)) := h
    simp at h2

/-- Witness for `meta_newindex_guard`: the fault branch is unreachable at
a concrete state once the setter upvalue is a table. -/
theorem meta_newindex_guard_witness :
    meta_newindex_impl (fun _ _ => []) .nil (.table [])
        ⟨[.integer 9, .str "k", .integer 42], 5, 0⟩
      ≠ .error .typeFault :=
  (meta_newindex_guard (fun _ _ => []) .nil []
    ⟨[.integer 9, .str "k", .integer 42], 5, 0⟩).1

/-- Witness for `rawinsert_rawremove_shift` at concrete integer values:
insert 99 at index 2 of [10, 20, 30] and remove index 2 of
[10, 20, 30, 40]. -/
theorem rawinsert_rawremove_shift_witness :
    (LValue.integer 10 ≠ .nil) ∧ (LValue.integer 20 ≠ .nil) ∧ (LValue.integer 30 ≠ .nil)
    ∧ (LValue.integer 40 ≠ .nil)
    ∧ ((∃ t2, lua_rawinsert_s
            ⟨[.integer 2, .integer 99,
              .table (seqTable [.integer 10, .integer 20, .integer 30])], 5, 0⟩
          = .ok (0, ⟨[.table t2], 7, 0⟩)
        ∧ tblEquiv t2 (seqTable [.integer 10, .integer 99, .integer 20, .integer 30]))
      ∧ (∃ t2, lua_rawremove_s
            ⟨[.integer 2,
              .table (seqTable [.integer 10, .integer 20, .integer 30, .integer 40])], 5, 0⟩
          = .ok (0, ⟨[.table t2], 6, 0⟩)
        ∧ tblEquiv t2 (seqTable [.integer 10, .integer 30, .integer 40]))) :=
  ⟨by simp, by simp, by simp, by simp,
    rawinsert_rawremove_shift (.integer 10) (.integer 20) (.integer 30) (.integer 40)
      (.integer 99) [] 5 0 (by simp) (by simp) (by simp) (by simp)⟩
